import Mathlib

/-!
Shallow embedding of the `timeinterval` package (benridley/gotime):
the `TimeInterval` data model, the calendar arithmetic it relies on,
the `ContainsTime` containment predicate, and the dimension parsers
(`parseTime`, `timeRange.UnmarshalYAML`, `parseDayOfWeekString`).

Go's mutable receivers are modelled by explicit state passing: a method
that may assign its receiver takes the prior receiver value and returns
the new receiver value together with an optional error string.
-/

deriving instance DecidableEq for Except

namespace Gotime

/-- `timeRange` from timeinterval.go: a range of minutes within a 1440
minute day, exclusive of the end minute. -/
structure timeRange where
  startMinute : Int
  endMinute : Int
deriving DecidableEq

/-- `weekdayRange` from timeinterval.go; `time.Weekday` is an integer,
Sunday = 0 through Saturday = 6. The Go field `end` is a Lean keyword and
is rendered `end'`. -/
structure weekdayRange where
  begin : Int
  end' : Int
deriving DecidableEq

/-- `inclusiveRange` from timeinterval.go: a closed integer interval.
The Go field `end` is rendered `end'`. -/
structure inclusiveRange where
  begin : Int
  end' : Int
deriving DecidableEq

/-- `TimeInterval` from timeinterval.go. A `nil` slice and an empty
slice behave identically in `ContainsTime` (a nil check guards a loop
that runs zero times on an empty slice), so each dimension is a plain
list. -/
structure TimeInterval where
  times : List timeRange
  daysOfMonth : List inclusiveRange
  months : List inclusiveRange
  daysOfWeek : List weekdayRange
  years : List inclusiveRange
deriving DecidableEq

/-- A calendar instant, standing for Go's `time.Time` restricted to the
fields `ContainsTime` reads: `Year()`, `Month()`, `Day()`, `Hour()`,
`Minute()` (and `Weekday()`, derived below from the date). -/
structure Time where
  year : Int
  month : Int
  day : Int
  hour : Int
  minute : Int
deriving DecidableEq

/-- Gregorian leap-year rule, as used by Go's `time` package date
arithmetic. -/
def isLeapYear (y : Int) : Bool :=
  y % 4 == 0 && (y % 100 != 0 || y % 400 == 0)

/-- `daysInMonth` from timeinterval.go: the number of days in the month
the instant occurs in. The Go code computes it as the difference between
the first of the month and the first of the next month
(`time.Date(...)` / `AddDate(0,1,0)` / `Sub`); for a normalized month
`1..12` that difference is the standard Gregorian month length. -/
def daysInMonth (y m : Int) : Int :=
  if m = 2 then (if isLeapYear y then 29 else 28)
  else if m = 4 ∨ m = 6 ∨ m = 9 ∨ m = 11 then 30
  else 31

/-- Julian day number of a civil date. All intermediate quantities are
nonnegative for the years of interest, so Lean's `Int` division agrees
with the usual floor divisions of the formula. Used only to derive the
weekday, as Go derives `Weekday()` from the absolute day count. -/
def jdn (y m d : Int) : Int :=
  let a := (14 - m) / 12
  let y' := y + 4800 - a
  let m' := m + 12 * a - 3
  d + (153 * m' + 2) / 5 + 365 * y' + y' / 4 - y' / 100 + y' / 400 - 32045

/-- The instant's weekday, Sunday = 0 through Saturday = 6, as returned
by Go's `t.Weekday()` (derived from the absolute day count modulo 7). -/
def Time.weekday (t : Time) : Int :=
  (jdn t.year t.month t.day + 1) % 7

/-- A structurally valid instant, mirroring the normalization Go's
`time.Time` maintains: month in `1..12`, day within the month, hour and
minute in range. -/
def Time.Valid (t : Time) : Prop :=
  1 ≤ t.month ∧ t.month ≤ 12 ∧ 1 ≤ t.day ∧ t.day ≤ daysInMonth t.year t.month ∧
    0 ≤ t.hour ∧ t.hour ≤ 23 ∧ 0 ≤ t.minute ∧ t.minute ≤ 59

instance (t : Time) : Decidable t.Valid := by
  unfold Time.Valid; infer_instance

/-- One dimension's loop in `ContainsTime`, translated literally. The Go
loop body is `if match { break }; return false`: on a non-empty slice the
first iteration either breaks (dimension satisfied) or returns false, so
only the head of the list is ever consulted; an empty (or nil) slice
falls through as satisfied. -/
def matchHeadDim {α : Type} (p : α → Bool) : List α → Bool
  | [] => true
  | r :: _ => p r

/-- The `times` test from `ContainsTime`:
`t.Hour()*60+t.Minute() >= startMinute && t.Hour()*60+t.Minute() < endMinute`. -/
def timeMatches (t : Time) (r : timeRange) : Bool :=
  decide (r.startMinute ≤ t.hour * 60 + t.minute) &&
    decide (t.hour * 60 + t.minute < r.endMinute)

/-- Resolution of one raw day-of-month endpoint against the instant's
month, from `ContainsTime`: a negative value `v` becomes
`daysInMonth(t) + v + 1`, a non-negative value is used as-is. -/
def resolveDayOfMonth (t : Time) (v : Int) : Int :=
  if v < 0 then daysInMonth t.year t.month + v + 1 else v

/-- The `daysOfMonth` test from `ContainsTime`:
`t.Day() >= begin && t.Day() <= end` after endpoint resolution. -/
def dayOfMonthMatches (t : Time) (r : inclusiveRange) : Bool :=
  decide (resolveDayOfMonth t r.begin ≤ t.day) &&
    decide (t.day ≤ resolveDayOfMonth t r.end')

/-- The `months` test from `ContainsTime`:
`t.Month() >= begin && t.Month() <= end`. -/
def monthMatches (t : Time) (r : inclusiveRange) : Bool :=
  decide (r.begin ≤ t.month) && decide (t.month ≤ r.end')

/-- The `daysOfWeek` test from `ContainsTime`:
`t.Weekday() >= begin && t.Weekday() <= end`. -/
def weekdayMatches (t : Time) (r : weekdayRange) : Bool :=
  decide (r.begin ≤ t.weekday) && decide (t.weekday ≤ r.end')

/-- The `years` test from `ContainsTime`:
`t.Year() >= begin && t.Year() <= end`. -/
def yearMatches (t : Time) (r : inclusiveRange) : Bool :=
  decide (r.begin ≤ t.year) && decide (t.year ≤ r.end')

/-- `TimeInterval.ContainsTime` from timeinterval.go, dimensions checked
in source order; each dimension block is the literal loop translation
`matchHeadDim` (see its doc comment for the `break` / `return false`
structure). -/
def TimeInterval.containsTime (tp : TimeInterval) (t : Time) : Bool :=
  matchHeadDim (timeMatches t) tp.times &&
  matchHeadDim (dayOfMonthMatches t) tp.daysOfMonth &&
  matchHeadDim (monthMatches t) tp.months &&
  matchHeadDim (weekdayMatches t) tp.daysOfWeek &&
  matchHeadDim (yearMatches t) tp.years

/-- The regular expression `^((([01][0-9])|(2[0-3])):[0-5][0-9])$|(^24:00$)`
(`validTime` in timeinterval.go), decided directly on the characters of
the candidate string. -/
def validTimeRE (s : String) : Bool :=
  s == "24:00" ||
  (match s.data with
   | [h1, h2, c, m1, m2] =>
     (((h1 == '0' || h1 == '1') && h2.isDigit) ||
       (h1 == '2' && ('0' ≤ h2 && h2 ≤ '3'))) &&
     c == ':' && ('0' ≤ m1 && m1 ≤ '5') && m2.isDigit
   | _ => false)

/-- Decimal value of a digit character, as `strconv.Atoi` reads one
digit. -/
def digitVal (c : Char) : Int :=
  (c.toNat : Int) - ('0'.toNat : Int)

/-- `parseTime` from timeinterval.go: reject anything the `validTime`
pattern refuses, split on `:`, convert both components with `Atoi`
(which cannot fail on a pattern match), apply the defensive bounds
check, and return `hours*60 + minutes`. -/
def parseTime (s : String) : Except String Int :=
  if validTimeRE s then
    match s.data with
    | [h1, h2, _, m1, m2] =>
      let hours := digitVal h1 * 10 + digitVal h2
      let mins := digitVal m1 * 10 + digitVal m2
      if hours < 0 ∨ hours > 24 ∨ mins < 0 ∨ mins > 60 then
        Except.error ("Timestamp " ++ s ++ " out of range")
      else
        Except.ok (hours * 60 + mins)
    | _ => Except.error ("Timestamp " ++ s ++ " out of range")
  else
    Except.error ("Couldn't parse timestamp " ++ s ++ ", invalid format")

/-- `yamlTimeRange` from timeinterval.go, the intermediate decoding type
holding the raw `start_time` / `end_time` strings. -/
structure yamlTimeRange where
  StartTime : String
  EndTime : String
deriving DecidableEq

/-- `timeRange.UnmarshalYAML` from timeinterval.go, after the decode into
`yamlTimeRange` has succeeded. The mutable receiver is explicit: the
argument `tr` is the receiver's prior value, the first component of the
result is its value afterwards, the second is the returned error (`none`
for a nil error). Note the start branch: on a `parseTime` failure the
source executes `return nil`, leaving the receiver unassigned while
reporting success. -/
def timeRange.unmarshalYAML (y : yamlTimeRange) (tr : timeRange) :
    timeRange × Option String :=
  if y.EndTime == "" || y.StartTime == "" then
    (tr, some "Both start and end times must be provided")
  else
    match parseTime y.StartTime with
    | Except.error _ => (tr, none)
    | Except.ok start =>
      match parseTime y.EndTime with
      | Except.error e => (tr, some e)
      | Except.ok stop =>
        if start < 0 then (tr, some "Start time out of range")
        else if stop > 1440 then (tr, some "End time out of range")
        else if start ≥ stop then
          (tr, some "Start time cannot be equal or greater than end time")
        else (⟨start, stop⟩, none)

/-- ASCII lower-casing of a string, character by character, as
`strings.ToLower` acts on the ASCII day-name tokens. -/
def lowerAscii (s : String) : String :=
  ⟨s.data.map Char.toLower⟩

/-- Splitting a character list at every occurrence of a separator, as
`strings.Split` does (n separators yield n+1 parts, empty parts kept). -/
def splitOnChar (c : Char) : List Char → List (List Char)
  | [] => [[]]
  | x :: xs =>
    let rest := splitOnChar c xs
    if x == c then [] :: rest
    else
      match rest with
      | [] => [[x]]
      | y :: ys => (x :: y) :: ys

/-- The `daysOfWeek` name-to-ordinal map from timeinterval.go. -/
def daysOfWeek (s : String) : Option Int :=
  if s == "sunday" then some 0
  else if s == "monday" then some 1
  else if s == "tuesday" then some 2
  else if s == "wednesday" then some 3
  else if s == "thursday" then some 4
  else if s == "friday" then some 5
  else if s == "saturday" then some 6
  else none

/-- `parseDayOfWeekString` from timeinterval.go: lower-case the token;
a token containing `:` must split into exactly two known day names in
non-decreasing ordinal order; otherwise the whole token must be a known
day name, producing a degenerate range. -/
def parseDayOfWeekString (s : String) : Except String weekdayRange :=
  let lower := lowerAscii s
  if lower.data.contains ':' then
    match (splitOnChar ':' lower.data).map String.mk with
    | [a, b] =>
      match daysOfWeek a with
      | none => Except.error ("Invalid start day: " ++ a)
      | some startDay =>
        match daysOfWeek b with
        | none => Except.error ("Invalid end day: " ++ a)
        | some endDay =>
          if startDay > endDay then
            Except.error "Start day cannot be after end day"
          else Except.ok ⟨startDay, endDay⟩
    | _ =>
      Except.error ("Coudn't parse day of week range " ++ lower ++ ", invalid format")
  else
    match daysOfWeek lower with
    | none => Except.error ("Unknown day of week " ++ lower)
    | some day => Except.ok ⟨day, day⟩

/-- Modelled from the spec: the day-of-month range validator
(`DayOfMonthRange` unmarshalling) is absent from `src/`, only its tests
and the spec describe it. Per §4.2: zero is never a valid day of the
month; an endpoint whose magnitude exceeds 31 is an impossible day; a
range whose raw endpoints are not monotonic non-decreasing once negative
endpoints are resolved against the longest possible month (31 days) is
rejected, which disallows the sign-mixes `-15:5` and `10:-25` while
admitting the `1:-1` "until the last day" exception. A valid range keeps
its raw endpoints for per-instant resolution. -/
def validateDayOfMonthRange (b e : Int) : Except String inclusiveRange :=
  if b = 0 ∨ e = 0 then Except.error "RangeError: 0 is not a valid day of the month"
  else if b < -31 ∨ b > 31 ∨ e < -31 ∨ e > 31 then
    Except.error "RangeError: day of the month out of span"
  else
    let checkBegin := if b < 0 then 31 + b + 1 else b
    let checkEnd := if e < 0 then 31 + e + 1 else e
    if checkBegin > checkEnd then Except.error "RangeError: end day is before start day"
    else Except.ok ⟨b, e⟩

/-- Decimal reading of a non-empty all-digit character list, as
`strconv.Atoi` reads an unsigned token. -/
def parseNatDigits (cs : List Char) : Option Nat :=
  if cs.isEmpty then none
  else
    cs.foldl
      (fun acc c =>
        acc.bind fun n => if c.isDigit then some (n * 10 + (c.toNat - '0'.toNat)) else none)
      (some 0)

/-- Signed decimal reading of a character list, as `strconv.Atoi` reads
an integer token with an optional leading minus sign. -/
def parseIntChars : List Char → Option Int
  | '-' :: rest => (parseNatDigits rest).map fun n => -(n : Int)
  | cs => (parseNatDigits cs).map fun n => (n : Int)

/-- Modelled from the spec: the textual day-of-month token, either a bare
integer or `int:int` (§4.2), fed to `validateDayOfMonthRange`; any other
shape is a hard parse error (§4.2, "every parser fails closed"). -/
def parseDayOfMonthToken (s : String) : Except String inclusiveRange :=
  match splitOnChar ':' s.data with
  | [v] =>
    match parseIntChars v with
    | none => Except.error "FormatError: not an integer"
    | some n => validateDayOfMonthRange n n
  | [a, b] =>
    match parseIntChars a, parseIntChars b with
    | some x, some y => validateDayOfMonthRange x y
    | _, _ => Except.error "FormatError: not an integer"
  | _ => Except.error "FormatError: not an integer or integer range"

/-! Theorems settling the claims. -/

/-- Claim C1: the spec requires OR semantics across the ranges of one
dimension, but `ContainsTime` returns false on the first non-matching
range. With `weekdays` holding the two ranges monday:friday `{1,5}` and
saturday `{6,6}`, a Wednesday instant (matched by the first range) is
contained, but a Saturday instant — whose weekday 6 is matched by the
second range — is not: the code evaluates only the head range. -/
theorem c1_secondRangeMatch_not_contained :
    TimeInterval.containsTime ⟨[], [], [], [⟨1, 5⟩, ⟨6, 6⟩], []⟩ ⟨2020, 7, 8, 12, 0⟩ = true ∧
    Time.weekday ⟨2020, 7, 11, 12, 0⟩ = 6 ∧
    weekdayMatches ⟨2020, 7, 11, 12, 0⟩ ⟨6, 6⟩ = true ∧
    TimeInterval.containsTime ⟨[], [], [], [⟨1, 5⟩, ⟨6, 6⟩], []⟩ ⟨2020, 7, 11, 12, 0⟩ = false := by
  refine ⟨by decide, by decide, by decide, by decide⟩

/-- Claim C2: a malformed `start_time` token must make unmarshalling
fail, but the source returns a nil error on that path (`return nil`
instead of `return err`): with start `"9:00"` (rejected by the time
pattern) and end `"17:00"`, unmarshalling reports success and leaves the
zero receiver untouched. -/
theorem c2_malformedStart_no_error :
    parseTime "9:00" = Except.error "Couldn't parse timestamp 9:00, invalid format" ∧
    timeRange.unmarshalYAML ⟨"9:00", "17:00"⟩ ⟨0, 0⟩ = (⟨0, 0⟩, none) := by
  refine ⟨by decide, by decide⟩

/-- Claim C3: with `years` holding the two ranges `{2020,2025}` and
`{2030,2035}` (the repository's own advanced test case), the instant
2035-01-31 13:00 satisfies the populated dimension through its second
range, yet `ContainsTime` returns false: the loop returns false on the
first non-matching range, so the claimed iff fails for multi-range
dimensions. -/
theorem c3_yearSecondRange_not_contained :
    yearMatches ⟨2035, 1, 31, 13, 0⟩ ⟨2030, 2035⟩ = true ∧
    TimeInterval.containsTime ⟨[], [], [], [], [⟨2020, 2025⟩, ⟨2030, 2035⟩]⟩
      ⟨2035, 1, 31, 13, 0⟩ = false := by
  refine ⟨by decide, by decide⟩

/-- Claim C4: with `times` holding the single range `{540,1020}`
(09:00–17:00), `ContainsTime` treats the range as half-open over
`minuteOfDay`: 09:00 and 16:59 are contained, 08:59 and 17:00 are
excluded. -/
theorem c4_halfOpen_minute_boundaries :
    TimeInterval.containsTime ⟨[⟨540, 1020⟩], [], [], [], []⟩ ⟨2020, 7, 8, 9, 0⟩ = true ∧
    TimeInterval.containsTime ⟨[⟨540, 1020⟩], [], [], [], []⟩ ⟨2020, 7, 8, 16, 59⟩ = true ∧
    TimeInterval.containsTime ⟨[⟨540, 1020⟩], [], [], [], []⟩ ⟨2020, 7, 8, 8, 59⟩ = false ∧
    TimeInterval.containsTime ⟨[⟨540, 1020⟩], [], [], [], []⟩ ⟨2020, 7, 8, 17, 0⟩ = false := by
  refine ⟨by decide, by decide, by decide, by decide⟩

/-- Claim C5: for every instant, the day-of-month range `{-3,-1}` is
resolved against the instant's month length `n` (a negative endpoint `v`
becomes `n + v + 1`), so the interval contains the instant exactly when
its day lies in `[n-2, n]` — the last three days of that month
(`{29,30,31}` when `n = 31`, `{27,28,29}` when `n = 29`, `{26,27,28}`
when `n = 28`), recomputed per instant. -/
theorem c5_negative_dayOfMonth_resolution (t : Time) :
    TimeInterval.containsTime ⟨[], [⟨-3, -1⟩], [], [], []⟩ t = true ↔
      (daysInMonth t.year t.month - 2 ≤ t.day ∧ t.day ≤ daysInMonth t.year t.month) := by
  simp only [TimeInterval.containsTime, matchHeadDim, dayOfMonthMatches, resolveDayOfMonth,
    Bool.and_eq_true, decide_eq_true_eq, Bool.true_and, Bool.and_true]
  norm_num
  omega

/-- Claim C6: every successful time-of-day parse must satisfy
`0 ≤ s < e ≤ 1440` (and violating pairs are rejected, as the `17:31`
pair shows), but the malformed-start slip (`return nil`) lets
unmarshalling succeed on start `"7:05"` / end `"08:00"` while the caller
observes the untouched zero-width receiver with `startMinute = endMinute`. -/
theorem c6_success_zero_width_observable :
    timeRange.unmarshalYAML ⟨"17:31", "17:31"⟩ ⟨0, 0⟩ =
      (⟨0, 0⟩, some "Start time cannot be equal or greater than end time") ∧
    timeRange.unmarshalYAML ⟨"7:05", "08:00"⟩ ⟨0, 0⟩ = (⟨0, 0⟩, none) ∧
    (timeRange.unmarshalYAML ⟨"7:05", "08:00"⟩ ⟨0, 0⟩).1.startMinute =
      (timeRange.unmarshalYAML ⟨"7:05", "08:00"⟩ ⟨0, 0⟩).1.endMinute := by
  refine ⟨by decide, by decide, by decide⟩

/-- Claim C7: weekday token parsing maps names case-insensitively to
ordinals Sunday = 0 through Saturday = 6, a single-name token (in any
casing whose lowering the table knows) yields a degenerate range with
`begin = end'`, the reversed range `Friday:Monday` is rejected rather
than wrapped, and an unknown name is an error. -/
theorem c7_weekday_token_parsing :
    (∀ s : String, ∀ d : Int, daysOfWeek (lowerAscii s) = some d →
      parseDayOfWeekString s = Except.ok ⟨d, d⟩) ∧
    parseDayOfWeekString "Friday:Monday" = Except.error "Start day cannot be after end day" ∧
    parseDayOfWeekString "blurgsday" = Except.error "Unknown day of week blurgsday" ∧
    parseDayOfWeekString "monday:friday" = Except.ok ⟨1, 5⟩ ∧
    daysOfWeek "sunday" = some 0 ∧ daysOfWeek "saturday" = some 6 := by
  refine ⟨?_, by decide, by decide, by decide, by decide, by decide⟩
  intro s d h
  unfold daysOfWeek at h
  split_ifs at h with h1 h2 h3 h4 h5 h6 h7
  · rw [beq_iff_eq] at h1
    injection h with hd; subst hd
    simp only [parseDayOfWeekString, h1]; decide
  · rw [beq_iff_eq] at h2
    injection h with hd; subst hd
    simp only [parseDayOfWeekString, h2]; decide
  · rw [beq_iff_eq] at h3
    injection h with hd; subst hd
    simp only [parseDayOfWeekString, h3]; decide
  · rw [beq_iff_eq] at h4
    injection h with hd; subst hd
    simp only [parseDayOfWeekString, h4]; decide
  · rw [beq_iff_eq] at h5
    injection h with hd; subst hd
    simp only [parseDayOfWeekString, h5]; decide
  · rw [beq_iff_eq] at h6
    injection h with hd; subst hd
    simp only [parseDayOfWeekString, h6]; decide
  · rw [beq_iff_eq] at h7
    injection h with hd; subst hd
    simp only [parseDayOfWeekString, h7]; decide

/-- Witness for claim C7: the hypothesis of the single-name conjunct is
satisfiable, e.g. at the mixed-case token `"Wednesday"`. -/
theorem c7_weekday_token_parsing_witness :
    daysOfWeek (lowerAscii "Wednesday") = some 3 ∧
    parseDayOfWeekString "Wednesday" = Except.ok ⟨3, 3⟩ := by
  refine ⟨by decide, c7_weekday_token_parsing.1 "Wednesday" 3 (by decide)⟩

/-- Claim C8: day-of-month token validation (modelled from the spec, the
unmarshalling code being absent from src) rejects the token `0`, the
sign-mixed ranges `-15:5` and `10:-25`, and the impossible span
`-50:-20` with a `RangeError`, while `1:-1` parses to the raw range
`{1,-1}` whose resolved form contains every valid day of every month. -/
theorem c8_dayOfMonth_token_validation :
    parseDayOfMonthToken "0" = Except.error "RangeError: 0 is not a valid day of the month" ∧
    parseDayOfMonthToken "-15:5" = Except.error "RangeError: end day is before start day" ∧
    parseDayOfMonthToken "10:-25" = Except.error "RangeError: end day is before start day" ∧
    parseDayOfMonthToken "-50:-20" = Except.error "RangeError: day of the month out of span" ∧
    parseDayOfMonthToken "1:-1" = Except.ok ⟨1, -1⟩ ∧
    (∀ t : Time, 1 ≤ t.day → t.day ≤ daysInMonth t.year t.month →
      TimeInterval.containsTime ⟨[], [⟨1, -1⟩], [], [], []⟩ t = true) := by
  refine ⟨by decide, by decide, by decide, by decide, by decide, ?_⟩
  intro t h1 h2
  simp only [TimeInterval.containsTime, matchHeadDim, dayOfMonthMatches, resolveDayOfMonth,
    Bool.and_eq_true, decide_eq_true_eq]
  norm_num
  exact ⟨h1, h2⟩

/-- Witness for claim C8: the hypotheses of the matching conjunct are
satisfiable, e.g. on 2021-02-28 (last day of a 28-day month). -/
theorem c8_dayOfMonth_token_validation_witness :
    (1 : Int) ≤ (Time.mk 2021 2 28 0 0).day ∧
    (Time.mk 2021 2 28 0 0).day ≤ daysInMonth 2021 2 ∧
    TimeInterval.containsTime ⟨[], [⟨1, -1⟩], [], [], []⟩ ⟨2021, 2, 28, 0, 0⟩ = true := by
  refine ⟨by decide, by decide,
    c8_dayOfMonth_token_validation.2.2.2.2.2 ⟨2021, 2, 28, 0, 0⟩ (by decide) (by decide)⟩

/-- Claim C9: whenever time-range unmarshalling returns a non-nil error,
the receiver is left unchanged — the receiver fields are assigned only
after every validation check has passed, so every error path returns the
prior value. -/
theorem c9_error_leaves_receiver_unchanged (y : yamlTimeRange) (tr r : timeRange)
    (msg : String) (h : timeRange.unmarshalYAML y tr = (r, some msg)) : r = tr := by
  unfold timeRange.unmarshalYAML at h
  split at h
  · simp [Prod.ext_iff] at h
    exact h.1.symm
  · split at h
    · simp at h
    · split at h
      · simp [Prod.ext_iff] at h
        exact h.1.symm
      · split_ifs at h <;> simp_all [Prod.ext_iff]

/-- Witness for claim C9: the hypothesis is satisfiable, e.g. with an
out-of-range end token and a receiver holding `{3,9}`. -/
theorem c9_error_leaves_receiver_unchanged_witness :
    timeRange.unmarshalYAML ⟨"12:30", "24:01"⟩ ⟨3, 9⟩ =
      (⟨3, 9⟩, some "Couldn't parse timestamp 24:01, invalid format") ∧
    (⟨3, 9⟩ : timeRange) = ⟨3, 9⟩ := by
  refine ⟨by decide,
    c9_error_leaves_receiver_unchanged ⟨"12:30", "24:01"⟩ ⟨3, 9⟩ ⟨3, 9⟩
      "Couldn't parse timestamp 24:01, invalid format" (by decide)⟩

/-- Claim C10: for every instant with a valid day in its month and every
day-of-month range whose begin resolves below 1 and whose end resolves
to at least the month's length, the containment test matches the
instant: an under-bound resolved lower bound widens the range rather
than excluding anything. -/
theorem c10_underbound_resolution_widens (t : Time) (r : inclusiveRange)
    (h1 : 1 ≤ t.day) (h2 : t.day ≤ daysInMonth t.year t.month)
    (h3 : resolveDayOfMonth t r.begin < 1)
    (h4 : daysInMonth t.year t.month ≤ resolveDayOfMonth t r.end') :
    TimeInterval.containsTime ⟨[], [r], [], [], []⟩ t = true := by
  simp only [TimeInterval.containsTime, matchHeadDim, dayOfMonthMatches,
    Bool.and_eq_true, decide_eq_true_eq, Bool.true_and, Bool.and_true]
  omega

/-- Witness for claim C10: the hypotheses are satisfiable with the range
`{-31,31}` in the 30-day month June 2020, where begin resolves to 0. -/
theorem c10_underbound_resolution_widens_witness :
    (1 : Int) ≤ (Time.mk 2020 6 30 0 0).day ∧
    (Time.mk 2020 6 30 0 0).day ≤ daysInMonth 2020 6 ∧
    resolveDayOfMonth ⟨2020, 6, 30, 0, 0⟩ (-31) < 1 ∧
    daysInMonth 2020 6 ≤ resolveDayOfMonth ⟨2020, 6, 30, 0, 0⟩ 31 ∧
    TimeInterval.containsTime ⟨[], [⟨-31, 31⟩], [], [], []⟩ ⟨2020, 6, 30, 0, 0⟩ = true := by
  refine ⟨by decide, by decide, by decide, by decide,
    c10_underbound_resolution_widens ⟨2020, 6, 30, 0, 0⟩ ⟨-31, 31⟩
      (by decide) (by decide) (by decide) (by decide)⟩

end Gotime
